/-
Verification development for the transactional core of the NFT marketplace
actor (`gear-dapps/nft-marketplace`).

The repository sources provide the data model (`io/src/lib.rs`: `Auction`,
`Item`, `MarketAction`, `MarketEvent`) and the outbound NFT-contract message
helpers (`src/nft_messages.rs`: `nft_transfer`, `payouts`, `get_owner`).
The marketplace handler bodies themselves (listing, bidding, settlement,
the offer book) are not part of the provided sources, so those operations
are modelled from the specification and marked as such in their doc
comments.

Machine integers (`u64` timestamps, `u128` prices) are modelled as `Nat`:
the specification treats timestamps as monotonic clock ticks and prices as
exact amounts, and none of the verified properties depends on wrap-around.
-/
import Mathlib

/-- Actor addresses (`ActorId` in `gstd`); `0` is the zero/empty address. -/
abbrev ActorId := Nat

/-- `pub type ContractId = ActorId;` from `io/src/lib.rs`. -/
abbrev ContractId := ActorId

/-- `pub type TokenId = U256;` from `io/src/lib.rs`, modelled as `Nat`. -/
abbrev TokenId := Nat

/-- `pub type Price = u128;` from `io/src/lib.rs`, modelled as `Nat`. -/
abbrev Price := Nat

/-- `pub type TransactionId = u64;` from `io/src/lib.rs`, modelled as `Nat`. -/
abbrev TransactionId := Nat

/-- The `Auction` struct of `io/src/lib.rs`: one embedded auction cycle.
`transaction` records `(winner, price, transaction id)` once settlement for
this auction has been attempted, supporting retry with the same id. -/
structure Auction where
  bid_period : Nat
  started_at : Nat
  ended_at : Nat
  current_price : Price
  current_winner : ActorId
  transaction : Option (ActorId × Price × TransactionId)
deriving DecidableEq, Repr

/-- Offer/bid book keys: `(Option<ContractId>, Price)` as in `Item` of
`io/src/lib.rs` (`None` payment token means native value). -/
abbrev OfferKey := Option ContractId × Price

/-- The `Item` struct of `io/src/lib.rs`: one NFT's marketplace state.  The
Rust `BTreeMap<(Option<ContractId>, Price), ActorId>` books are modelled as
association lists whose key uniqueness is tracked by `keysNodup`.
`transaction_id` is the spec's `pending_transaction` lock. -/
structure Item where
  owner : ActorId
  ft_contract_id : Option ContractId
  price : Option Price
  auction : Option Auction
  offers : List (OfferKey × ActorId)
  bids : List (OfferKey × ActorId)
  transaction_id : Option TransactionId
deriving DecidableEq, Repr

/-- The `Default` item inserted by `get_or_create`: zero owner, nothing
listed, empty books (Rust `#[derive(Default)]` on `Item`). -/
def initItem : Item :=
  { owner := 0, ft_contract_id := none, price := none, auction := none,
    offers := [], bids := [], transaction_id := none }

/-- Modelled from the spec: the error taxonomy of section 7 (the handler
bodies that raise these are not in the provided sources).  `NotOnSale`
stands for the "item must be listed" rejection of the buy path, for which
the taxonomy names no dedicated kind. -/
inductive MarketErr where
  | Unauthorized
  | NotApproved
  | AuctionActive
  | AuctionStillOpen
  | AuctionExpired
  | NoAuction
  | PriceTooLow
  | ZeroPrice
  | DuplicateOffer
  | OfferNotFound
  | InsufficientPayment
  | TransactionPending
  | SettlementFailed
  | NotOnSale
deriving DecidableEq, Repr

/-- Lookup in an association-list book (the `BTreeMap::get` of the source
data model). -/
def lookupKey (k : OfferKey) : List (OfferKey × ActorId) → Option ActorId
  | [] => none
  | (k', v) :: rest => if k' = k then some v else lookupKey k rest

/-- Removal of the entry at a key (the `BTreeMap::remove` of the source
data model); removes the first entry with the key. -/
def eraseKey (k : OfferKey) : List (OfferKey × ActorId) → List (OfferKey × ActorId)
  | [] => []
  | (k', v) :: rest => if k' = k then rest else (k', v) :: eraseKey k rest

/-- Key uniqueness of a book — automatic for a Rust `BTreeMap`, tracked
explicitly for the association-list model. -/
def keysNodup (l : List (OfferKey × ActorId)) : Prop :=
  (l.map Prod.fst).Nodup

instance (l : List (OfferKey × ActorId)) : Decidable (keysNodup l) := by
  unfold keysNodup; infer_instance

instance {ε α : Type} [DecidableEq ε] [DecidableEq α] : DecidableEq (Except ε α) :=
  fun x y =>
  match x, y with
  | .ok a, .ok b =>
    match decEq a b with
    | isTrue h => isTrue (by rw [h])
    | isFalse h => isFalse fun hh => h (Except.ok.inj hh)
  | .error a, .error b =>
    match decEq a b with
    | isTrue h => isTrue (by rw [h])
    | isFalse h => isFalse fun hh => h (Except.error.inj hh)
  | .ok _, .error _ => isFalse fun hh => Except.noConfusion hh
  | .error _, .ok _ => isFalse fun hh => Except.noConfusion hh

/-- Modelled from the spec: the state update of an accepted bid
(section 4.3) — record the new highest bid and apply the anti-snipe
extension when less than `bid_period` remains before expiry. -/
def bidUpdate (a : Auction) (bidder : ActorId) (price : Price) (now : Nat) : Auction :=
  { a with
    current_price := price
    current_winner := bidder
    ended_at := if a.ended_at - now < a.bid_period then now + a.bid_period else a.ended_at }

/-- Modelled from the spec: `bid(auction, bidder, price, now)` of
section 4.3 — fails with `PriceTooLow` unless `price > current_price`,
fails with `AuctionExpired` if `now >= ended_at`, otherwise accepts. -/
def bidOp (a : Auction) (bidder : ActorId) (price : Price) (now : Nat) :
    Except MarketErr Auction :=
  if price ≤ a.current_price then .error .PriceTooLow
  else if a.ended_at ≤ now then .error .AuctionExpired
  else .ok (bidUpdate a bidder price now)

/-- Modelled from the spec: the cross-actor settlement environment —
which of the coordinator's three awaited external calls (payout query,
payment transfer, NFT transfer; section 4.5) succeeds on one attempt. -/
structure SettleEnv where
  payoutOk : Bool
  payOk : Bool
  transferOk : Bool
deriving DecidableEq, Repr

/-- The kind of one outbound settlement call (section 4.5's protocol
steps; the NFT-transfer step is the `NFTAction::Transfer` message sent by
`nft_transfer` in `src/nft_messages.rs`). -/
inductive CallKind where
  | payoutQuery
  | payment
  | nftTransfer
deriving DecidableEq, Repr

/-- One outbound call of a settlement attempt, carrying the transaction id
threaded through every call of the attempt. -/
structure Call where
  kind : CallKind
  tx : TransactionId
deriving DecidableEq, Repr

/-- Outcome of driving one settlement attempt. -/
inductive SettleOutcome where
  | settled
  | cancelled
  | failed
deriving DecidableEq, Repr

/-- Modelled from the spec: the Settlement Coordinator (section 4.5).
The item passed in is already locked (`transaction_id` set) by the
synchronous phase.  Each step is awaited before the next; on a failing
step no unwinding happens — the locked item is returned unchanged with a
`failed` outcome; on full success ownership moves to the buyer,
direct-sale price and auction state are cleared, and the lock released. -/
def settleDrive (locked : Item) (buyer : ActorId) (tx : TransactionId) (env : SettleEnv) :
    Item × List Call × SettleOutcome :=
  if env.payoutOk then
    if env.payOk then
      if env.transferOk then
        ({ locked with owner := buyer, price := none, auction := none,
                       transaction_id := none },
         [⟨.payoutQuery, tx⟩, ⟨.payment, tx⟩, ⟨.nftTransfer, tx⟩], .settled)
      else (locked, [⟨.payoutQuery, tx⟩, ⟨.payment, tx⟩, ⟨.nftTransfer, tx⟩], .failed)
    else (locked, [⟨.payoutQuery, tx⟩, ⟨.payment, tx⟩], .failed)
  else (locked, [⟨.payoutQuery, tx⟩], .failed)

/-- The transaction id an auction settlement attempt uses: the id recorded
by a previous attempt when one exists (retry), otherwise a fresh id. -/
def txOf (a : Auction) (fresh : TransactionId) : TransactionId :=
  match a.transaction with
  | some (_, _, t) => t
  | none => fresh

/-- Result of the synchronous phase of auction settlement: cancel the
auction (no bids), or proceed into the asynchronous protocol on a locked
item. -/
inductive SettlePlan where
  | cancel (it : Item)
  | proceed (it : Item) (buyer : ActorId) (amount : Price) (tx : TransactionId)
deriving DecidableEq, Repr

/-- Modelled from the spec: the synchronous phase of `settle(auction, now)`
(section 4.3) — fails with `AuctionStillOpen` if `now < ended_at`; with an
empty `current_winner` cancels and removes the auction; otherwise records
`(current_winner, current_price, tx)` on the auction, sets the item's
pending-transaction lock, and hands off to the coordinator.  The recorded
transaction id of a previous attempt is reused. -/
def settlePrepare (it : Item) (now : Nat) (fresh : TransactionId) :
    Except MarketErr SettlePlan :=
  match it.auction with
  | none => .error .NoAuction
  | some a =>
    if now < a.ended_at then .error .AuctionStillOpen
    else if a.current_winner = 0 then .ok (.cancel { it with auction := none })
    else
      let tx := txOf a fresh
      .ok (.proceed
        { it with
          transaction_id := some tx
          auction := some { a with transaction := some (a.current_winner, a.current_price, tx) } }
        a.current_winner a.current_price tx)

/-- Modelled from the spec: full auction settlement — synchronous phase
then, when a winner exists, the coordinator; returns the new item, the
outbound calls issued, and the outcome (sections 4.3 and 4.5). -/
def settleAuctionItem (it : Item) (now : Nat) (fresh : TransactionId) (env : SettleEnv) :
    Except MarketErr (Item × List Call × SettleOutcome) :=
  match settlePrepare it now fresh with
  | .error e => .error e
  | .ok (.cancel it') => .ok (it', [], .cancelled)
  | .ok (.proceed it' buyer _ tx) => .ok (settleDrive it' buyer tx env)

/-- The transaction ids carried by the NFT-transfer calls of a trace. -/
def transferTxs (cs : List Call) : List TransactionId :=
  (cs.filter (fun c => c.kind = CallKind.nftTransfer)).map Call.tx

/-- Net NFT ownership transfers an external actor that treats a repeated
transfer request bearing an already-seen transaction id as a no-op would
apply on a trace: one per distinct transaction id among transfer calls. -/
def netTransfers (cs : List Call) : Nat :=
  (transferTxs cs).dedup.length

/-- Modelled from the spec: `list(item, owner, payment_token, price)` of
section 4.2 — sets owner, payment token and asking price; fails with
`AuctionActive` if an auction is open (ownership is verified by the
dispatcher against the NFT contract before this is reached). -/
def listItemOp (it : Item) (owner : ActorId) (ft : Option ContractId)
    (price : Option Price) : Except MarketErr Item :=
  if it.auction.isSome then .error .AuctionActive
  else .ok { it with owner := owner, ft_contract_id := ft, price := price }

/-- Modelled from the spec: `create(item, min_price, bid_period, duration,
now)` of section 4.3 — fails with `AuctionActive` if an auction is already
open; initializes the auction and clears direct-sale eligibility
(section 3's invariant: creating an auction clears `price`). -/
def createAuctionOp (it : Item) (owner : ActorId) (ft : Option ContractId)
    (min_price : Price) (bid_period duration now : Nat) : Except MarketErr Item :=
  if it.auction.isSome then .error .AuctionActive
  else .ok { it with
    owner := owner, ft_contract_id := ft, price := none,
    auction := some
      { bid_period := bid_period, started_at := now, ended_at := now + duration,
        current_price := min_price, current_winner := 0, transaction := none } }

/-- Modelled from the spec: the add-bid handler on an item — requires an
open auction, delegates to `bidOp`, and records the bid in the audit book
(section 3's `bids` mapping). -/
def addBidOp (it : Item) (bidder : ActorId) (price : Price) (now : Nat) :
    Except MarketErr Item :=
  match it.auction with
  | none => .error .NoAuction
  | some a =>
    match bidOp a bidder price now with
    | .error e => .error e
    | .ok a' =>
      .ok { it with auction := some a',
                    bids := ((it.ft_contract_id, price), bidder) :: it.bids }

/-- Modelled from the spec: the buy handler (section 6) — requires no open
auction and a listed price, then locks the item with a fresh transaction
id and drives the settlement coordinator with the buyer. -/
def buyItemRun (it : Item) (buyer : ActorId) (fresh : TransactionId) (env : SettleEnv) :
    Except MarketErr (Item × List Call × SettleOutcome) :=
  if it.auction.isSome then .error .AuctionActive
  else
    match it.price with
    | none => .error .NotOnSale
    | some _ => .ok (settleDrive { it with transaction_id := some fresh } buyer fresh env)

/-- Modelled from the spec: `add_offer(item, offerer, payment_token,
price)` of section 4.4 — fails with `ZeroPrice` if the price is 0, with
`DuplicateOffer` if the `(payment_token, price)` key already exists, with
`AuctionActive` if an auction is open; otherwise inserts the offer. -/
def addOfferOp (it : Item) (offerer : ActorId) (ft : Option ContractId) (price : Price) :
    Except MarketErr Item :=
  if price = 0 then .error .ZeroPrice
  else if (lookupKey (ft, price) it.offers).isSome then .error .DuplicateOffer
  else if it.auction.isSome then .error .AuctionActive
  else .ok { it with offers := ((ft, price), offerer) :: it.offers }

/-- Modelled from the spec: `withdraw_offer(item, caller, payment_token,
price)` of section 4.4 — fails with `OfferNotFound` when no offer is
stored at the key, with `Unauthorized` when the caller is not the stored
offerer; on success removes the entry and returns the reimbursement of the
caller's escrowed value/tokens as `(payee, payment token, amount)`. -/
def withdrawOfferOp (it : Item) (caller : ActorId) (ft : Option ContractId) (price : Price) :
    Except MarketErr (Item × (ActorId × Option ContractId × Price)) :=
  match lookupKey (ft, price) it.offers with
  | none => .error .OfferNotFound
  | some offerer =>
    if caller = offerer then
      .ok ({ it with offers := eraseKey (ft, price) it.offers }, (caller, ft, price))
    else .error .Unauthorized

/-- Modelled from the spec: `accept_offer` of section 4.4 — only the item
owner, no open auction, offer must exist; removes the entry, locks the
item, and drives the coordinator with the offerer as buyer. -/
def acceptOfferOp (it : Item) (caller : ActorId) (ft : Option ContractId) (price : Price)
    (fresh : TransactionId) (env : SettleEnv) :
    Except MarketErr (Item × List Call × SettleOutcome) :=
  if caller ≠ it.owner then .error .Unauthorized
  else if it.auction.isSome then .error .AuctionActive
  else
    match lookupKey (ft, price) it.offers with
    | none => .error .OfferNotFound
    | some offerer =>
      .ok (settleDrive
        { it with offers := eraseKey (ft, price) it.offers, transaction_id := some fresh }
        offerer fresh env)

/-- Modelled from the spec: the inbound action surface the dispatcher
handles for one item (section 4.6; the `MarketAction` variants of
`io/src/lib.rs` that touch a single item's sale state).  Settlement-driving
actions carry the fresh transaction id the market counter would assign and
the external-call environment of the attempt. -/
inductive Act where
  | listItem (owner : ActorId) (ft : Option ContractId) (price : Option Price)
  | buyItem (buyer : ActorId) (fresh : TransactionId) (env : SettleEnv)
  | createAuction (owner : ActorId) (ft : Option ContractId) (min_price : Price)
      (bid_period duration : Nat)
  | addBid (bidder : ActorId) (price : Price)
  | settleAuction (fresh : TransactionId) (env : SettleEnv)
  | addOffer (offerer : ActorId) (ft : Option ContractId) (price : Price)
  | withdraw (caller : ActorId) (ft : Option ContractId) (price : Price)
  | acceptOffer (caller : ActorId) (ft : Option ContractId) (price : Price)
      (fresh : TransactionId) (env : SettleEnv)
deriving DecidableEq, Repr

/-- Whether an action is the settle-auction re-drive path (the one entry
point that may legitimately run on an item whose pending transaction is
set, reusing the recorded transaction id). -/
def Act.isSettle : Act → Bool
  | .settleAuction _ _ => true
  | _ => false

/-- Modelled from the spec: the Action Dispatcher on one item
(sections 4.6 and 5) — every handler except the settlement re-drive first
rejects with `TransactionPending` when the item's pending-transaction lock
is set, then delegates to the component operation. -/
def stepA (now : Nat) (a : Act) (it : Item) : Except MarketErr Item :=
  match a with
  | .settleAuction fresh env => (settleAuctionItem it now fresh env).map Prod.fst
  | .listItem o ft p =>
    if it.transaction_id.isSome then .error .TransactionPending
    else listItemOp it o ft p
  | .buyItem b fresh env =>
    if it.transaction_id.isSome then .error .TransactionPending
    else (buyItemRun it b fresh env).map Prod.fst
  | .createAuction o ft mp bp d =>
    if it.transaction_id.isSome then .error .TransactionPending
    else createAuctionOp it o ft mp bp d now
  | .addBid b p =>
    if it.transaction_id.isSome then .error .TransactionPending
    else addBidOp it b p now
  | .addOffer o ft p =>
    if it.transaction_id.isSome then .error .TransactionPending
    else addOfferOp it o ft p
  | .withdraw c ft p =>
    if it.transaction_id.isSome then .error .TransactionPending
    else (withdrawOfferOp it c ft p).map Prod.fst
  | .acceptOffer c ft p fresh env =>
    if it.transaction_id.isSome then .error .TransactionPending
    else (acceptOfferOp it c ft p fresh env).map Prod.fst

/-- The actor's state transition: a rejected action replies with the error
and leaves the item unchanged. -/
def stepKeep (now : Nat) (a : Act) (it : Item) : Item :=
  match stepA now a it with
  | .ok it' => it'
  | .error _ => it

/-- Item states reachable from the freshly inserted default item by
sequences of accepted actions. -/
inductive Reachable : Item → Prop where
  | init : Reachable initItem
  | step (now : Nat) (a : Act) (it it' : Item) :
      Reachable it → stepA now a it = .ok it' → Reachable it'

/-- Modelled from the spec: the reply type `NFTEvent` of the external NFT
contract (crate `nft_io`, outside this repository's sources); the variants
matched by `src/nft_messages.rs` plus the other confirmations the contract
can reply with (section 6's outbound boundary). -/
inductive NFTEvent where
  | Transfer (from_ : ActorId) (to_ : ActorId) (token_id : TokenId)
  | Owner (owner : ActorId) (token_id : TokenId)
  | NFTPayout (payout : List (ActorId × Nat))
  | Approval (owner : ActorId) (approved_account : ActorId) (token_id : TokenId)
deriving DecidableEq, Repr

/-- Outcome of running one of the reply-handling continuations of
`src/nft_messages.rs`: a returned value, a returned `Err(())`, or a panic
(`expect` / the `panic!` arm of an unexpected reply). -/
inductive RunOutcome (α : Type) where
  | ok (a : α)
  | err
  | panicked
deriving DecidableEq, Repr

/-- `nft_transfer` from `src/nft_messages.rs`, after the initial send
succeeded: the awaited reply is `Ok` of some decoded `NFTEvent` (`some e`)
or a delivery/decoding failure (`none`); the match returns `Ok(())` on any
decoded event and `Err(())` otherwise. -/
def nft_transfer (reply : Option NFTEvent) : RunOutcome Unit :=
  match reply with
  | some _ => .ok ()
  | none => .err

/-- `payouts` from `src/nft_messages.rs`, after the initial send succeeded:
`expect` panics on a failed/undecodable reply, the match returns the payout
on `NFTEvent::NFTPayout` and panics on every other variant. -/
def payouts (reply : Option NFTEvent) : RunOutcome (List (ActorId × Nat)) :=
  match reply with
  | none => .panicked
  | some (NFTEvent.NFTPayout p) => .ok p
  | some _ => .panicked

/-- `get_owner` from `src/nft_messages.rs`, after the initial send of
`NFTAction::Owner { token_id := requested }` succeeded: `expect` panics on
a failed/undecodable reply, the match returns the `owner` field of an
`NFTEvent::Owner` reply — the reply's `token_id` binding is unused, no
comparison with `requested` happens — and panics on every other variant. -/
def get_owner (requested : TokenId) (reply : Option NFTEvent) : RunOutcome ActorId :=
  match reply with
  | none => .panicked
  | some (NFTEvent.Owner owner _) => .ok owner
  | some _ => .panicked

/-- A sample open auction: min price 100, bid period 10, running 0..50
(the scenario of section 8 of the specification). -/
def aucSample : Auction :=
  { bid_period := 10, started_at := 0, ended_at := 50, current_price := 100,
    current_winner := 0, transaction := none }

/-- The sample auction after the winning bid of 150 by actor 2. -/
def aucWon : Auction := { aucSample with current_price := 150, current_winner := 2 }

/-- An item owned by actor 1, listed at price 100. -/
def itemListed : Item := { initItem with owner := 1, price := some 100 }

/-- An item with an outstanding native-value offer of 50 by actor 3. -/
def itemWithOffer : Item := { itemListed with offers := [((none, 50), 3)] }

/-- An item with an open no-bid auction. -/
def itemNoBid : Item := { initItem with owner := 1, auction := some aucSample }

/-- An item whose auction ended with winner 2 at price 150, settlement not
yet attempted. -/
def itemWon : Item := { initItem with owner := 1, auction := some aucWon }

/-- The won auction after settlement recorded `(2, 150, 7)`. -/
def aucWonLocked : Auction := { aucWon with transaction := some (2, 150, 7) }

/-- `itemWon` locked by the settlement attempt with transaction id 7. -/
def itemWonLocked : Item :=
  { itemWon with transaction_id := some 7, auction := some aucWonLocked }

/-- Claim C9: `nft_transfer` returns `Ok(())` whenever the reply decodes to
any `NFTEvent` variant (not only a transfer confirmation), returns
`Err(())` on every failed or undecodable reply, and never panics once the
initial send succeeded — in contrast to `payouts` and `get_owner`, which
panic on unexpected or undecodable replies. -/
theorem C9_nft_transfer_total :
    (∀ e : NFTEvent, nft_transfer (some e) = RunOutcome.ok ()) ∧
    nft_transfer none = RunOutcome.err ∧
    (∀ r : Option NFTEvent,
      nft_transfer r = RunOutcome.ok () ∨ nft_transfer r = RunOutcome.err) ∧
    payouts (some (NFTEvent.Owner 1 2)) = RunOutcome.panicked ∧
    payouts none = RunOutcome.panicked ∧
    get_owner 0 (some (NFTEvent.NFTPayout [])) = RunOutcome.panicked := by
  refine ⟨fun e => rfl, rfl, ?_, rfl, rfl, rfl⟩
  intro r
  cases r with
  | none => exact Or.inr rfl
  | some e => exact Or.inl rfl

/-- Claim C10: `get_owner` returns the `owner` field of an
`NFTEvent::Owner` reply whatever `token_id` the reply carries — no
comparison with the requested token id happens — and panics on any reply
that is not the `Owner` variant. -/
theorem C10_get_owner_ignores_reply_token :
    (∀ requested owner tid,
      get_owner requested (some (NFTEvent.Owner owner tid)) = RunOutcome.ok owner) ∧
    get_owner 5 (some (NFTEvent.Owner 7 99)) = RunOutcome.ok 7 ∧
    (∀ requested p,
      get_owner requested (some (NFTEvent.NFTPayout p)) = RunOutcome.panicked) ∧
    (∀ requested x y t,
      get_owner requested (some (NFTEvent.Transfer x y t)) = RunOutcome.panicked) ∧
    (∀ requested x y t,
      get_owner requested (some (NFTEvent.Approval x y t)) = RunOutcome.panicked) ∧
    (∀ requested, get_owner requested none = RunOutcome.panicked) :=
  ⟨fun _ _ _ => rfl, rfl, fun _ _ => rfl, fun _ _ _ _ => rfl, fun _ _ _ _ => rfl,
   fun _ => rfl⟩

/-- Claim C4: on an open auction, a bid fails with `PriceTooLow` unless it
exceeds the current price, fails with `AuctionExpired` once `now` has
reached `ended_at`, and when accepted records the bid as the new current
price and winner. -/
theorem C4_bid_semantics (a : Auction) (bidder : ActorId) (price : Price) (now : Nat) :
    (price ≤ a.current_price → bidOp a bidder price now = .error .PriceTooLow) ∧
    (a.current_price < price → a.ended_at ≤ now →
      bidOp a bidder price now = .error .AuctionExpired) ∧
    (a.current_price < price → now < a.ended_at →
      bidOp a bidder price now = .ok (bidUpdate a bidder price now) ∧
      (bidUpdate a bidder price now).current_price = price ∧
      (bidUpdate a bidder price now).current_winner = bidder) := by
  refine ⟨?_, ?_, ?_⟩
  · intro h
    simp [bidOp, h]
  · intro h1 h2
    simp [bidOp, Nat.not_le.mpr h1, h2]
  · intro h1 h2
    refine ⟨?_, rfl, rfl⟩
    simp [bidOp, Nat.not_le.mpr h1, Nat.not_le.mpr h2]

/-- Witness for C4 on the section-8 scenario auction. -/
theorem C4_bid_semantics_witness :
    bidOp aucSample 2 90 45 = .error .PriceTooLow ∧
    bidOp aucSample 2 150 50 = .error .AuctionExpired ∧
    (bidOp aucSample 2 150 45 = .ok (bidUpdate aucSample 2 150 45) ∧
      (bidUpdate aucSample 2 150 45).current_price = 150 ∧
      (bidUpdate aucSample 2 150 45).current_winner = 2) :=
  ⟨(C4_bid_semantics aucSample 2 90 45).1 (by decide),
   (C4_bid_semantics aucSample 2 150 50).2.1 (by decide) (by decide),
   (C4_bid_semantics aucSample 2 150 45).2.2 (by decide) (by decide)⟩

/-- Claim C5: an accepted bid arriving with less than `bid_period` left
before expiry sets `ended_at` to `now + bid_period`, a strict increase; an
accepted bid arriving earlier leaves `ended_at` unchanged. -/
theorem C5_anti_snipe (a : Auction) (bidder : ActorId) (price : Price) (now : Nat)
    (hp : a.current_price < price) (ht : now < a.ended_at) :
    (a.ended_at - now < a.bid_period →
      bidOp a bidder price now = .ok (bidUpdate a bidder price now) ∧
      (bidUpdate a bidder price now).ended_at = now + a.bid_period ∧
      a.ended_at < (bidUpdate a bidder price now).ended_at) ∧
    (a.bid_period ≤ a.ended_at - now →
      (bidUpdate a bidder price now).ended_at = a.ended_at) := by
  constructor
  · intro hlate
    refine ⟨?_, ?_, ?_⟩
    · simp [bidOp, Nat.not_le.mpr hp, Nat.not_le.mpr ht]
    · simp [bidUpdate, hlate]
    · simp only [bidUpdate, if_pos hlate]
      omega
  · intro hearly
    simp [bidUpdate, Nat.not_lt.mpr hearly]

/-- Witness for C5: the section-8 scenario — the bid at `t = 45` extends
`ended_at` from 50 to 55, a bid at `t = 20` would not. -/
theorem C5_anti_snipe_witness :
    (bidOp aucSample 2 150 45 = .ok (bidUpdate aucSample 2 150 45) ∧
      (bidUpdate aucSample 2 150 45).ended_at = 45 + aucSample.bid_period ∧
      aucSample.ended_at < (bidUpdate aucSample 2 150 45).ended_at) ∧
    (bidUpdate aucSample 2 150 20).ended_at = aucSample.ended_at :=
  ⟨(C5_anti_snipe aucSample 2 150 45 (by decide) (by decide)).1 (by decide),
   (C5_anti_snipe aucSample 2 150 20 (by decide) (by decide)).2 (by decide)⟩

/-- Claim C6: settlement fails with `AuctionStillOpen` whenever
`now < ended_at`; settlement of an expired auction with the empty (zero)
winner cancels: the auction is removed from the item, no outbound call is
issued, and the outcome is `cancelled`. -/
theorem C6_settle_still_open_and_cancel (it : Item) (a : Auction) (now : Nat)
    (fresh : TransactionId) (env : SettleEnv) (ha : it.auction = some a) :
    (now < a.ended_at →
      settleAuctionItem it now fresh env = .error .AuctionStillOpen) ∧
    (a.ended_at ≤ now → a.current_winner = 0 →
      settleAuctionItem it now fresh env =
        .ok ({ it with auction := none }, [], .cancelled)) := by
  constructor
  · intro h
    simp [settleAuctionItem, settlePrepare, ha, h]
  · intro h hw
    simp [settleAuctionItem, settlePrepare, ha, Nat.not_lt.mpr h, hw]

/-- Witness for C6: the section-8 no-bid auction — settling at `t = 40`
is rejected, settling at `t = 60` cancels without any outbound call. -/
theorem C6_settle_witness :
    settleAuctionItem itemNoBid 40 7 ⟨true, true, true⟩ = .error .AuctionStillOpen ∧
    settleAuctionItem itemNoBid 60 7 ⟨true, true, true⟩ =
      .ok ({ itemNoBid with auction := none }, [], .cancelled) :=
  ⟨(C6_settle_still_open_and_cancel itemNoBid aucSample 40 7 ⟨true, true, true⟩ rfl).1
     (by decide),
   (C6_settle_still_open_and_cancel itemNoBid aucSample 60 7 ⟨true, true, true⟩ rfl).2
     (by decide) (by decide)⟩

/-- A key is found in a book exactly when it occurs among the stored keys. -/
lemma lookupKey_isSome_iff (k : OfferKey) (l : List (OfferKey × ActorId)) :
    (lookupKey k l).isSome = true ↔ k ∈ l.map Prod.fst := by
  induction l with
  | nil => simp [lookupKey]
  | cons p rest ih =>
    obtain ⟨k', v⟩ := p
    by_cases h : k' = k
    · subst h
      simp [lookupKey]
    · simp [lookupKey, h, ih, Ne.symm h]

/-- Erasing a key removes its entry: under key uniqueness the key is no
longer found. -/
lemma lookupKey_eraseKey_self (k : OfferKey) (l : List (OfferKey × ActorId))
    (h : keysNodup l) : lookupKey k (eraseKey k l) = none := by
  induction l with
  | nil => simp [eraseKey, lookupKey]
  | cons p rest ih =>
    obtain ⟨k', v⟩ := p
    have hnd : k' ∉ rest.map Prod.fst ∧ keysNodup rest := by
      simpa [keysNodup] using h
    by_cases hk : k' = k
    · subst hk
      have hnone : lookupKey k' rest = none := by
        cases hfind : lookupKey k' rest with
        | none => rfl
        | some o =>
          exact absurd ((lookupKey_isSome_iff k' rest).mp (by simp [hfind])) hnd.1
      simp [eraseKey, hnone]
    · simp [eraseKey, hk, lookupKey, ih hnd.2]

/-- Erasing a key leaves every other key's entry in place. -/
lemma lookupKey_eraseKey_ne (k k' : OfferKey) (l : List (OfferKey × ActorId))
    (h : k' ≠ k) : lookupKey k' (eraseKey k l) = lookupKey k' l := by
  induction l with
  | nil => simp [eraseKey]
  | cons p rest ih =>
    obtain ⟨k0, v⟩ := p
    by_cases hk : k0 = k
    · subst hk
      simp [eraseKey, lookupKey, Ne.symm h]
    · simp only [eraseKey, if_neg hk]
      by_cases hk' : k0 = k'
      · simp [lookupKey, hk']
      · simp [lookupKey, hk', ih]

/-- Claim C7: `add_offer` fails with `ZeroPrice` exactly on a zero price;
for a nonzero price it fails with `DuplicateOffer` exactly when the
`(payment_token, price)` key is already stored; for a nonzero fresh key it
fails with `AuctionActive` exactly when an auction is open; every
rejection leaves the item unchanged, and an accepted offer preserves key
uniqueness of the book. -/
theorem C7_add_offer_errors (it : Item) (offerer : ActorId) (ft : Option ContractId)
    (price : Price) :
    (addOfferOp it offerer ft price = .error .ZeroPrice ↔ price = 0) ∧
    (price ≠ 0 →
      (addOfferOp it offerer ft price = .error .DuplicateOffer ↔
        (lookupKey (ft, price) it.offers).isSome = true)) ∧
    (price ≠ 0 → lookupKey (ft, price) it.offers = none →
      (addOfferOp it offerer ft price = .error .AuctionActive ↔
        it.auction.isSome = true)) ∧
    (∀ now e, addOfferOp it offerer ft price = .error e →
      stepKeep now (Act.addOffer offerer ft price) it = it) ∧
    (∀ it', addOfferOp it offerer ft price = .ok it' →
      keysNodup it.offers → keysNodup it'.offers) := by
  refine ⟨?_, ?_, ?_, ?_, ?_⟩
  · constructor
    · intro h
      by_contra hz
      simp only [addOfferOp, if_neg hz] at h
      split at h
      · exact MarketErr.noConfusion (Except.error.inj h)
      · split at h
        · exact MarketErr.noConfusion (Except.error.inj h)
        · exact Except.noConfusion h
    · intro h
      simp [addOfferOp, h]
  · intro hz
    constructor
    · intro h
      by_contra hdup
      simp only [addOfferOp, if_neg hz, if_neg hdup] at h
      split at h
      · exact MarketErr.noConfusion (Except.error.inj h)
      · exact Except.noConfusion h
    · intro h
      simp [addOfferOp, hz, h]
  · intro hz hfresh
    constructor
    · intro h
      by_contra hauc
      simp only [addOfferOp, if_neg hz, hfresh, Option.isSome_none, Bool.false_eq_true,
        if_false, if_neg hauc] at h
      exact Except.noConfusion h
    · intro h
      simp [addOfferOp, hz, hfresh, h]
  · intro now e herr
    by_cases hpend : it.transaction_id.isSome
    · simp [stepKeep, stepA, hpend]
    · simp [stepKeep, stepA, hpend, herr]
  · intro it' hok hnd
    have hz : ¬price = 0 := by
      intro hz
      simp [addOfferOp, hz] at hok
    have hdup : ¬(lookupKey (ft, price) it.offers).isSome = true := by
      intro hdup
      simp [addOfferOp, hz, hdup] at hok
    have hauc : ¬it.auction.isSome = true := by
      intro hauc
      simp [addOfferOp, hz, hdup, hauc] at hok
    have hit' : it' = { it with offers := ((ft, price), offerer) :: it.offers } := by
      simp only [addOfferOp, if_neg hz, hdup, Bool.false_eq_true, if_false,
        hauc, Except.ok.injEq] at hok
      exact hok.symm
    subst hit'
    have hmem : (ft, price) ∉ it.offers.map Prod.fst := by
      intro hmem
      exact hdup ((lookupKey_isSome_iff _ _).mpr hmem)
    show ((((ft, price), offerer) :: it.offers).map Prod.fst).Nodup
    rw [List.map_cons]
    exact List.nodup_cons.mpr ⟨hmem, hnd⟩

/-- Witness for C7: zero-price rejection, duplicate rejection, open-auction
rejection, no state change on rejection, and key uniqueness after an
accepted offer. -/
theorem C7_add_offer_errors_witness :
    (addOfferOp itemListed 3 none 0 = .error .ZeroPrice ↔ (0 : Price) = 0) ∧
    (addOfferOp itemWithOffer 4 none 50 = .error .DuplicateOffer ↔
      (lookupKey (none, 50) itemWithOffer.offers).isSome = true) ∧
    (addOfferOp itemNoBid 3 none 60 = .error .AuctionActive ↔
      itemNoBid.auction.isSome = true) ∧
    stepKeep 0 (Act.addOffer 3 none 0) itemListed = itemListed ∧
    keysNodup ({ itemWithOffer with
      offers := ((none, 60), 4) :: itemWithOffer.offers } : Item).offers :=
  ⟨(C7_add_offer_errors itemListed 3 none 0).1,
   (C7_add_offer_errors itemWithOffer 4 none 50).2.1 (by decide),
   (C7_add_offer_errors itemNoBid 3 none 60).2.2.1 (by decide) (by decide),
   (C7_add_offer_errors itemListed 3 none 0).2.2.2.1 0 .ZeroPrice (by decide),
   (C7_add_offer_errors itemWithOffer 4 none 60).2.2.2.2 _ (by decide) (by decide)⟩

/-- Claim C8: `withdraw_offer` fails with `OfferNotFound` when no offer is
stored at the `(payment_token, price)` key, fails with `Unauthorized` when
the caller is not the stored offerer, and on success removes exactly that
entry — the key is gone, every other key is untouched — and reimburses the
caller's escrowed value/tokens at that key. -/
theorem C8_withdraw_offer (it : Item) (caller : ActorId) (ft : Option ContractId)
    (price : Price) :
    (lookupKey (ft, price) it.offers = none →
      withdrawOfferOp it caller ft price = .error .OfferNotFound) ∧
    (∀ o, lookupKey (ft, price) it.offers = some o → caller ≠ o →
      withdrawOfferOp it caller ft price = .error .Unauthorized) ∧
    (∀ o, lookupKey (ft, price) it.offers = some o → caller = o →
      keysNodup it.offers →
      withdrawOfferOp it caller ft price =
        .ok ({ it with offers := eraseKey (ft, price) it.offers },
             (caller, ft, price)) ∧
      lookupKey (ft, price) (eraseKey (ft, price) it.offers) = none ∧
      (∀ k, k ≠ (ft, price) →
        lookupKey k (eraseKey (ft, price) it.offers) = lookupKey k it.offers)) := by
  refine ⟨?_, ?_, ?_⟩
  · intro h
    simp [withdrawOfferOp, h]
  · intro o hfound hne
    simp [withdrawOfferOp, hfound, hne]
  · intro o hfound heq hnd
    refine ⟨by simp [withdrawOfferOp, hfound, heq], lookupKey_eraseKey_self _ _ hnd,
      fun k hk => lookupKey_eraseKey_ne _ _ _ hk⟩

/-- Witness for C8 on the item with the single offer `((native, 50), 3)`. -/
theorem C8_withdraw_offer_witness :
    withdrawOfferOp itemWithOffer 3 none 60 = .error .OfferNotFound ∧
    withdrawOfferOp itemWithOffer 4 none 50 = .error .Unauthorized ∧
    (withdrawOfferOp itemWithOffer 3 none 50 =
      .ok ({ itemWithOffer with offers := eraseKey (none, 50) itemWithOffer.offers },
           (3, none, 50)) ∧
     lookupKey (none, 50) (eraseKey (none, 50) itemWithOffer.offers) = none ∧
     (∀ k, k ≠ ((none, 50) : OfferKey) →
       lookupKey k (eraseKey (none, 50) itemWithOffer.offers) =
         lookupKey k itemWithOffer.offers)) :=
  ⟨(C8_withdraw_offer itemWithOffer 3 none 60).1 (by decide),
   (C8_withdraw_offer itemWithOffer 4 none 50).2.1 3 (by decide) (by decide),
   (C8_withdraw_offer itemWithOffer 3 none 50).2.2 3 (by decide) (by decide)
     (by decide)⟩

/-- The synchronous settlement phase locks the item: a `proceed` plan's
item carries the attempt's transaction id in `transaction_id`. -/
lemma settlePrepare_proceed_locked (it : Item) (now : Nat) (fresh : TransactionId)
    (it' : Item) (b : ActorId) (amt : Price) (tx : TransactionId)
    (h : settlePrepare it now fresh = .ok (.proceed it' b amt tx)) :
    it'.transaction_id = some tx := by
  cases ha : it.auction with
  | none => simp [settlePrepare, ha] at h
  | some a =>
    simp only [settlePrepare, ha] at h
    split at h
    · exact Except.noConfusion h
    · split at h
      · exact SettlePlan.noConfusion (Except.ok.inj h)
      · injection Except.ok.inj h with h1 h2 h3 h4
        subst h1
        subst h4
        rfl

/-- Inversion of a `cancel` plan: the returned item is the input with the
auction removed. -/
lemma settlePrepare_cancel_eq (it : Item) (now : Nat) (fresh : TransactionId)
    (itc : Item) (h : settlePrepare it now fresh = .ok (.cancel itc)) :
    itc = { it with auction := none } := by
  cases ha : it.auction with
  | none => simp [settlePrepare, ha] at h
  | some a =>
    simp only [settlePrepare, ha] at h
    split at h
    · exact Except.noConfusion h
    · split at h
      · exact (SettlePlan.cancel.inj (Except.ok.inj h)).symm
      · exact SettlePlan.noConfusion (Except.ok.inj h)

/-- Inversion of a `proceed` plan: the locked item keeps the input's price
and still holds an auction, and the input had one. -/
lemma settlePrepare_proceed_fields (it : Item) (now : Nat) (fresh : TransactionId)
    (it' : Item) (b : ActorId) (amt : Price) (tx : TransactionId)
    (h : settlePrepare it now fresh = .ok (.proceed it' b amt tx)) :
    it'.price = it.price ∧ it'.auction.isSome = true ∧ it.auction.isSome = true ∧
    it'.auction.map Auction.ended_at = it.auction.map Auction.ended_at ∧
    it'.auction.map Auction.current_winner = it.auction.map Auction.current_winner := by
  cases ha : it.auction with
  | none => simp [settlePrepare, ha] at h
  | some a =>
    simp only [settlePrepare, ha] at h
    split at h
    · exact Except.noConfusion h
    · split at h
      · exact SettlePlan.noConfusion (Except.ok.inj h)
      · injection Except.ok.inj h with h1 h2 h3 h4
        subst h1
        simp [ha]

/-- Claim C3: while an item's pending-transaction field is set, every new
sale-affecting action on it is rejected with `TransactionPending` and the
item is not mutated (the dispatcher returns before touching it); and every
settlement path — auction settlement, buy, accept-offer — has the item
locked with the attempt's transaction id before its first asynchronous
call, observable by failing that first call. -/
theorem C3_pending_lock_discipline :
    (∀ (now : Nat) (a : Act) (it : Item), a.isSettle = false →
      it.transaction_id.isSome = true →
      stepA now a it = .error .TransactionPending) ∧
    (∀ (it : Item) (now : Nat) (fresh : TransactionId) (it' : Item)
        (b : ActorId) (amt : Price) (tx : TransactionId),
      settlePrepare it now fresh = .ok (.proceed it' b amt tx) →
      it'.transaction_id = some tx) ∧
    (∀ (it : Item) (now : Nat) (fresh : TransactionId) (env : SettleEnv)
        (it1 : Item) (calls1 : List Call),
      env.payoutOk = false →
      settleAuctionItem it now fresh env = .ok (it1, calls1, .failed) →
      it1.transaction_id.isSome = true) ∧
    (∀ (it : Item) (b : ActorId) (fresh : TransactionId) (env : SettleEnv)
        (r : Item × List Call × SettleOutcome),
      env.payoutOk = false → buyItemRun it b fresh env = .ok r →
      r.1.transaction_id = some fresh) ∧
    (∀ (it : Item) (c : ActorId) (ft : Option ContractId) (p : Price)
        (fresh : TransactionId) (env : SettleEnv)
        (r : Item × List Call × SettleOutcome),
      env.payoutOk = false → acceptOfferOp it c ft p fresh env = .ok r →
      r.1.transaction_id = some fresh) := by
  refine ⟨?_, settlePrepare_proceed_locked, ?_, ?_, ?_⟩
  · intro now a it hs hp
    cases a with
    | settleAuction fresh env => simp [Act.isSettle] at hs
    | listItem o ft p => simp [stepA, hp]
    | buyItem b fresh env => simp [stepA, hp]
    | createAuction o ft mp bp d => simp [stepA, hp]
    | addBid b p => simp [stepA, hp]
    | addOffer o ft p => simp [stepA, hp]
    | withdraw c ft p => simp [stepA, hp]
    | acceptOffer c ft p fresh env => simp [stepA, hp]
  · intro it now fresh env it1 calls1 hpo h
    unfold settleAuctionItem at h
    cases hprep : settlePrepare it now fresh with
    | error e => rw [hprep] at h; exact Except.noConfusion h
    | ok plan =>
      rw [hprep] at h
      cases plan with
      | cancel itc => simp at h
      | proceed itp b amt tx =>
        have hd := Except.ok.inj h
        rw [settleDrive, hpo] at hd
        simp only [Bool.false_eq_true, if_false] at hd
        have h1 : itp = it1 := congrArg Prod.fst hd
        rw [← h1, settlePrepare_proceed_locked it now fresh itp b amt tx hprep]
        rfl
  · intro it b fresh env r hpo h
    unfold buyItemRun at h
    split at h
    · exact Except.noConfusion h
    · split at h
      · exact Except.noConfusion h
      · have hd := Except.ok.inj h
        rw [settleDrive, hpo] at hd
        simp only [Bool.false_eq_true, if_false] at hd
        rw [← hd]
  · intro it c ft p fresh env r hpo h
    unfold acceptOfferOp at h
    split at h
    · exact Except.noConfusion h
    · split at h
      · exact Except.noConfusion h
      · split at h
        · exact Except.noConfusion h
        · have hd := Except.ok.inj h
          rw [settleDrive, hpo] at hd
          simp only [Bool.false_eq_true, if_false] at hd
          rw [← hd]

/-- An item locked by an in-flight settlement. -/
def itemLocked : Item := { itemListed with transaction_id := some 5 }

/-- Result state of a buy attempt on `itemListed` whose first settlement
call failed: locked with the fresh transaction id 9. -/
def buyLockedRes : Item × List Call × SettleOutcome :=
  ({ itemListed with transaction_id := some 9 }, [⟨.payoutQuery, 9⟩], .failed)

/-- Result state of an accept-offer attempt on `itemWithOffer` whose first
settlement call failed. -/
def acceptLockedRes : Item × List Call × SettleOutcome :=
  ({ itemWithOffer with
     offers := eraseKey (none, 50) itemWithOffer.offers,
     transaction_id := some 9 }, [⟨.payoutQuery, 9⟩], .failed)

/-- Witness for C3: a locked item rejects a new offer; each settlement
path is locked at its first (here failing) outbound call. -/
theorem C3_pending_lock_witness :
    stepA 0 (Act.addOffer 3 none 60) itemLocked = .error .TransactionPending ∧
    itemWonLocked.transaction_id = some 7 ∧
    itemWonLocked.transaction_id.isSome = true ∧
    buyLockedRes.1.transaction_id = some 9 ∧
    acceptLockedRes.1.transaction_id = some 9 :=
  ⟨C3_pending_lock_discipline.1 0 (Act.addOffer 3 none 60) itemLocked rfl rfl,
   C3_pending_lock_discipline.2.1 itemWon 60 7 itemWonLocked 2 150 7 (by decide),
   C3_pending_lock_discipline.2.2.1 itemWon 60 7 ⟨false, true, true⟩ itemWonLocked
     [⟨.payoutQuery, 7⟩] rfl (by decide),
   C3_pending_lock_discipline.2.2.2.1 itemListed 4 9 ⟨false, true, true⟩ buyLockedRes
     rfl (by decide),
   C3_pending_lock_discipline.2.2.2.2 itemWithOffer 1 none 50 9 ⟨false, true, true⟩
     acceptLockedRes rfl (by decide)⟩

/-- The sale-mode invariant of section 3: an item never simultaneously has
an active direct-sale price and an open auction. -/
abbrev SaleInv (it : Item) : Prop := it.price = none ∨ it.auction = none

/-- Driving the settlement coordinator preserves the sale-mode invariant:
a failed attempt returns the locked item unchanged and a complete one
clears the direct-sale price and the auction. -/
lemma saleInv_settleDrive (locked : Item) (b : ActorId) (tx : TransactionId)
    (env : SettleEnv) (h : SaleInv locked) :
    SaleInv (settleDrive locked b tx env).1 := by
  obtain ⟨p1, p2, p3⟩ := env
  cases p1 <;> cases p2 <;> cases p3 <;>
    simp only [settleDrive, if_true, if_false] <;>
    first
      | exact h
      | exact Or.inl rfl

/-- A successful `add_offer` changes only the offer book. -/
lemma addOfferOp_ok_fields (it : Item) (o : ActorId) (ft : Option ContractId) (p : Price)
    (it' : Item) (h : addOfferOp it o ft p = .ok it') :
    it'.price = it.price ∧ it'.auction = it.auction ∧
    it'.transaction_id = it.transaction_id := by
  unfold addOfferOp at h
  split at h
  · exact Except.noConfusion h
  · split at h
    · exact Except.noConfusion h
    · split at h
      · exact Except.noConfusion h
      · cases Except.ok.inj h
        exact ⟨rfl, rfl, rfl⟩

/-- A successful `withdraw_offer` changes only the offer book. -/
lemma withdrawOfferOp_ok_fields (it : Item) (c : ActorId) (ft : Option ContractId)
    (p : Price) (r : Item × (ActorId × Option ContractId × Price))
    (h : withdrawOfferOp it c ft p = .ok r) :
    r.1.price = it.price ∧ r.1.auction = it.auction ∧
    r.1.transaction_id = it.transaction_id := by
  unfold withdrawOfferOp at h
  split at h
  · exact Except.noConfusion h
  · split at h
    · cases Except.ok.inj h
      exact ⟨rfl, rfl, rfl⟩
    · exact Except.noConfusion h

/-- A successful `accept_offer` runs the coordinator on the guard-checked
item: no auction was open, the entry is removed, the item locked. -/
lemma acceptOfferOp_ok (it : Item) (c : ActorId) (ft : Option ContractId) (p : Price)
    (fresh : TransactionId) (env : SettleEnv) (r : Item × List Call × SettleOutcome)
    (h : acceptOfferOp it c ft p fresh env = .ok r) :
    it.auction.isSome = false ∧
    ∃ offerer, r = settleDrive
      { it with offers := eraseKey (ft, p) it.offers, transaction_id := some fresh }
      offerer fresh env := by
  unfold acceptOfferOp at h
  split at h
  · exact Except.noConfusion h
  · split at h
    · exact Except.noConfusion h
    · rename_i hauc
      split at h
      · exact Except.noConfusion h
      · rename_i offerer hfound
        exact ⟨Bool.not_eq_true _ ▸ hauc, offerer, (Except.ok.inj h).symm⟩

/-- One accepted dispatcher action preserves the sale-mode invariant. -/
lemma saleInv_step (now : Nat) (a : Act) (it it' : Item)
    (hinv : SaleInv it) (h : stepA now a it = .ok it') : SaleInv it' := by
  cases a with
  | listItem o ft p =>
    simp only [stepA] at h
    split at h
    · exact Except.noConfusion h
    · unfold listItemOp at h
      split at h
      · exact Except.noConfusion h
      · rename_i hauc
        cases Except.ok.inj h
        exact Or.inr (Option.not_isSome_iff_eq_none.mp hauc)
  | buyItem b fresh env =>
    simp only [stepA] at h
    split at h
    · exact Except.noConfusion h
    · cases hrun : buyItemRun it b fresh env with
      | error e => rw [hrun] at h; exact Except.noConfusion h
      | ok r =>
        rw [hrun] at h
        simp only [Except.map] at h
        cases Except.ok.inj h
        unfold buyItemRun at hrun
        split at hrun
        · exact Except.noConfusion hrun
        · rename_i hauc
          split at hrun
          · exact Except.noConfusion hrun
          · cases Except.ok.inj hrun
            exact saleInv_settleDrive _ b fresh env
              (Or.inr (Option.not_isSome_iff_eq_none.mp hauc))
  | createAuction o ft mp bp d =>
    simp only [stepA] at h
    split at h
    · exact Except.noConfusion h
    · unfold createAuctionOp at h
      split at h
      · exact Except.noConfusion h
      · cases Except.ok.inj h
        exact Or.inl rfl
  | addBid b p =>
    simp only [stepA] at h
    split at h
    · exact Except.noConfusion h
    · unfold addBidOp at h
      split at h
      · exact Except.noConfusion h
      · rename_i a0 ha
        split at h
        · exact Except.noConfusion h
        · cases Except.ok.inj h
          cases hinv with
          | inl hp => exact Or.inl hp
          | inr hn => rw [ha] at hn; exact Option.noConfusion hn
  | settleAuction fresh env =>
    simp only [stepA] at h
    cases hrun : settleAuctionItem it now fresh env with
    | error e => rw [hrun] at h; exact Except.noConfusion h
    | ok r =>
      rw [hrun] at h
      simp only [Except.map] at h
      cases Except.ok.inj h
      unfold settleAuctionItem at hrun
      cases hprep : settlePrepare it now fresh with
      | error e => rw [hprep] at hrun; exact Except.noConfusion hrun
      | ok plan =>
        rw [hprep] at hrun
        cases plan with
        | cancel itc =>
          cases Except.ok.inj hrun
          rw [settlePrepare_cancel_eq it now fresh itc hprep]
          exact Or.inr rfl
        | proceed itp pb pamt ptx =>
          cases Except.ok.inj hrun
          apply saleInv_settleDrive
          obtain ⟨hp, _, hsome, _, _⟩ :=
            settlePrepare_proceed_fields it now fresh itp pb pamt ptx hprep
          cases hinv with
          | inl hpn => exact Or.inl (hp.trans hpn)
          | inr hn => rw [hn] at hsome; exact Bool.noConfusion hsome
  | addOffer o ft p =>
    simp only [stepA] at h
    split at h
    · exact Except.noConfusion h
    · obtain ⟨hp, ha, _⟩ := addOfferOp_ok_fields it o ft p it' h
      show it'.price = none ∨ it'.auction = none
      rw [hp, ha]
      exact hinv
  | withdraw c ft p =>
    simp only [stepA] at h
    split at h
    · exact Except.noConfusion h
    · cases hrun : withdrawOfferOp it c ft p with
      | error e => rw [hrun] at h; exact Except.noConfusion h
      | ok r =>
        rw [hrun] at h
        simp only [Except.map] at h
        cases Except.ok.inj h
        obtain ⟨hp, ha, _⟩ := withdrawOfferOp_ok_fields it c ft p r hrun
        show r.1.price = none ∨ r.1.auction = none
        rw [hp, ha]
        exact hinv
  | acceptOffer c ft p fresh env =>
    simp only [stepA] at h
    split at h
    · exact Except.noConfusion h
    · cases hrun : acceptOfferOp it c ft p fresh env with
      | error e => rw [hrun] at h; exact Except.noConfusion h
      | ok r =>
        rw [hrun] at h
        simp only [Except.map] at h
        cases Except.ok.inj h
        obtain ⟨hauc, offerer, hr⟩ := acceptOfferOp_ok it c ft p fresh env r hrun
        rw [hr]
        exact saleInv_settleDrive _ _ _ _
          (Or.inr (Option.not_isSome_iff_eq_none.mp (by simp [hauc])))

/-- Claim C2: in every item state reachable by accepted actions, at most
one of direct-sale price and auction is present; creating an auction
clears direct-sale eligibility, and listing or changing the price is
rejected with `AuctionActive` while an auction is present. -/
theorem C2_sale_mode_exclusive :
    (∀ it : Item, Reachable it → it.price = none ∨ it.auction = none) ∧
    (∀ (it : Item) (o : ActorId) (ft : Option ContractId) (mp : Price)
        (bp d now : Nat) (it' : Item),
      createAuctionOp it o ft mp bp d now = .ok it' → it'.price = none) ∧
    (∀ (it : Item) (o : ActorId) (ft : Option ContractId) (p : Option Price),
      it.auction.isSome = true → listItemOp it o ft p = .error .AuctionActive) := by
  refine ⟨?_, ?_, ?_⟩
  · intro it h
    induction h with
    | init => exact Or.inl rfl
    | step now a s s' hr heq ih => exact saleInv_step now a s s' ih heq
  · intro it o ft mp bp d now it' h
    unfold createAuctionOp at h
    split at h
    · exact Except.noConfusion h
    · cases Except.ok.inj h
      rfl
  · intro it o ft p hauc
    simp [listItemOp, hauc]

/-- The item obtained by creating the sample auction on `itemListed`:
direct-sale price cleared. -/
def itemAuctionCreated : Item := { itemListed with price := none, auction := some aucSample }

/-- Witness for C2: the invariant at the initial item, price cleared by a
concrete auction creation, and rejection of a price change during the
sample open auction. -/
theorem C2_sale_mode_witness :
    (initItem.price = none ∨ initItem.auction = none) ∧
    itemAuctionCreated.price = none ∧
    listItemOp itemNoBid 1 none (some 5) = .error .AuctionActive :=
  ⟨C2_sale_mode_exclusive.1 initItem Reachable.init,
   C2_sale_mode_exclusive.2.1 itemListed 1 none 100 10 50 0 itemAuctionCreated
     (by decide),
   C2_sale_mode_exclusive.2.2 itemNoBid 1 none (some 5) rfl⟩

/-- Every outbound call of one coordinator attempt carries the attempt's
transaction id. -/
lemma settleDrive_calls_tx (locked : Item) (b : ActorId) (tx : TransactionId)
    (env : SettleEnv) :
    ((settleDrive locked b tx env).2.1.all fun c => c.tx == tx) = true := by
  obtain ⟨p1, p2, p3⟩ := env
  cases p1 <;> cases p2 <;> cases p3 <;> simp [settleDrive]

/-- Transport of `settleDrive_calls_tx` along a run equation. -/
lemma settleDrive_eq_calls_tx (locked : Item) (b : ActorId) (tx : TransactionId)
    (env : SettleEnv) (r : Item × List Call × SettleOutcome)
    (h : settleDrive locked b tx env = r) :
    (r.2.1.all fun c => c.tx == tx) = true :=
  h ▸ settleDrive_calls_tx locked b tx env

/-- A failed coordinator attempt returns the locked item unchanged. -/
lemma settleDrive_failed_item (locked : Item) (b : ActorId) (tx : TransactionId)
    (env : SettleEnv) (it' : Item) (cs : List Call)
    (h : settleDrive locked b tx env = (it', cs, .failed)) : it' = locked := by
  obtain ⟨p1, p2, p3⟩ := env
  cases p1 <;> cases p2 <;> cases p3 <;> simp [settleDrive] at h <;>
    first
      | exact h.1
      | exact h.1.symm

/-- A trace whose calls all carry one transaction id yields at most one
net transfer under idempotent external handling. -/
lemma netTransfers_le_one_of_all_eq (cs : List Call) (t : TransactionId)
    (h : ∀ c ∈ cs, c.tx = t) : netTransfers cs ≤ 1 := by
  have hall : ∀ x ∈ (transferTxs cs).dedup, x = t := by
    intro x hx
    have hx' : x ∈ transferTxs cs := List.mem_dedup.mp hx
    unfold transferTxs at hx'
    rcases List.mem_map.mp hx' with ⟨c, hc, rfl⟩
    exact h c (List.mem_filter.mp hc).1
  have hnd : (transferTxs cs).dedup.Nodup := List.nodup_dedup _
  unfold netTransfers
  rcases hdl : (transferTxs cs).dedup with _ | ⟨x, _ | ⟨y, rest⟩⟩
  · simp
  · simp
  · exfalso
    rw [hdl] at hall hnd
    have hxy : x = y := (hall x (by simp)).trans (hall y (by simp)).symm
    rw [List.nodup_cons] at hnd
    apply hnd.1
    rw [hxy]
    exact List.mem_cons_self y rest

/-- Reduction of the synchronous phase on an expired auction with a
winner: the item is locked under `txOf a fresh` and the winner recorded. -/
lemma settlePrepare_expired (it : Item) (a : Auction) (now : Nat) (fresh : TransactionId)
    (ha : it.auction = some a) (hnow : a.ended_at ≤ now) (hw : a.current_winner ≠ 0) :
    settlePrepare it now fresh = .ok (.proceed
      { it with
        transaction_id := some (txOf a fresh),
        auction := some
          { a with transaction := some (a.current_winner, a.current_price, txOf a fresh) } }
      a.current_winner a.current_price (txOf a fresh)) := by
  simp [settlePrepare, ha, Nat.not_lt.mpr hnow, hw]

/-- Claim C1: when a settlement attempt of a won auction fails
mid-protocol, the item keeps its pending transaction id and the auction
keeps the recorded `(winner, price, transaction id)` tuple; a re-invoked
settlement issues every outbound call — of both the failed attempt and the
retry — under that identical transaction id, so an external actor that
treats a repeated request bearing a seen transaction id as a no-op applies
at most one net NFT ownership transfer. -/
theorem C1_settlement_retry_idempotent
    (it : Item) (a : Auction) (now1 now2 : Nat) (fresh1 fresh2 : TransactionId)
    (env1 env2 : SettleEnv) (it1 it2 : Item) (calls1 calls2 : List Call)
    (out2 : SettleOutcome)
    (ha : it.auction = some a)
    (hnow1 : a.ended_at ≤ now1) (hnow2 : a.ended_at ≤ now2)
    (hw : a.current_winner ≠ 0)
    (hrun1 : settleAuctionItem it now1 fresh1 env1 = .ok (it1, calls1, .failed))
    (hrun2 : settleAuctionItem it1 now2 fresh2 env2 = .ok (it2, calls2, out2)) :
    it1.transaction_id = some (txOf a fresh1) ∧
    it1.auction.map Auction.transaction =
      some (some (a.current_winner, a.current_price, txOf a fresh1)) ∧
    ((calls1 ++ calls2).all fun c => c.tx == txOf a fresh1) = true ∧
    netTransfers (calls1 ++ calls2) ≤ 1 := by
  have hprep1 := settlePrepare_expired it a now1 fresh1 ha hnow1 hw
  simp only [settleAuctionItem, hprep1, Except.ok.injEq] at hrun1
  have hit1 : it1 = { it with
      transaction_id := some (txOf a fresh1),
      auction := some
        { a with transaction := some (a.current_winner, a.current_price, txOf a fresh1) } } :=
    settleDrive_failed_item _ _ _ _ _ _ hrun1
  subst hit1
  have hprep2 := settlePrepare_expired
    { it with
      transaction_id := some (txOf a fresh1),
      auction := some
        { a with transaction := some (a.current_winner, a.current_price, txOf a fresh1) } }
    { a with transaction := some (a.current_winner, a.current_price, txOf a fresh1) }
    now2 fresh2 rfl hnow2 hw
  simp only [settleAuctionItem, hprep2, Except.ok.injEq] at hrun2
  have hcall1 : ∀ c ∈ calls1, (c.tx == txOf a fresh1) = true :=
    List.all_eq_true.mp (settleDrive_eq_calls_tx _ _ _ _ _ hrun1)
  have hcall2 : ∀ c ∈ calls2, (c.tx == txOf a fresh1) = true :=
    List.all_eq_true.mp (settleDrive_eq_calls_tx _ _ _ _ _ hrun2)
  refine ⟨rfl, rfl, ?_, ?_⟩
  · rw [List.all_eq_true]
    intro c hcmem
    rcases List.mem_append.mp hcmem with h | h
    · exact hcall1 c h
    · exact hcall2 c h
  · apply netTransfers_le_one_of_all_eq _ (txOf a fresh1)
    intro c hcmem
    rcases List.mem_append.mp hcmem with h | h
    · exact eq_of_beq (hcall1 c h)
    · exact eq_of_beq (hcall2 c h)

/-- The outbound calls of one full settlement attempt under transaction
id 7: payout query, payment, NFT transfer. -/
def callsAttempt1 : List Call :=
  [⟨.payoutQuery, 7⟩, ⟨.payment, 7⟩, ⟨.nftTransfer, 7⟩]

/-- The item after the retried settlement of `itemWon` completed: owned by
the winner, nothing listed, lock released. -/
def itemSold : Item := { initItem with owner := 2 }

/-- Witness for C1: the settlement of `itemWon` fails at the NFT-transfer
step (transaction id 7), the retry with a different fresh id 8 reuses id 7
on every call, and the combined trace applies one net transfer. -/
theorem C1_settlement_retry_witness :
    itemWonLocked.transaction_id = some (txOf aucWon 7) ∧
    itemWonLocked.auction.map Auction.transaction =
      some (some (aucWon.current_winner, aucWon.current_price, txOf aucWon 7)) ∧
    ((callsAttempt1 ++ callsAttempt1).all fun c => c.tx == txOf aucWon 7) = true ∧
    netTransfers (callsAttempt1 ++ callsAttempt1) ≤ 1 :=
  C1_settlement_retry_idempotent itemWon aucWon 60 60 7 8 ⟨true, true, false⟩
    ⟨true, true, true⟩ itemWonLocked itemSold callsAttempt1 callsAttempt1 .settled
    (by decide) (by decide) (by decide) (by decide) (by decide) (by decide)
